import Mathlib

/-!
Shallow embedding of the MCP server in `src/main.cpp` (hankarun/simpleMCPServer):
the JSON value model, the tool registry, the JSON-RPC dispatcher
(`handle_message`, `handle_initialize`, `handle_tools_list`, `handle_tools_call`,
`create_error_response`), the HTTP header parsing and routing of `read_request`,
and the body framing of `read_post_body`.

C++ exceptions are modelled with `Except`: a `.error` escaping a function models
an exception propagating out of it.  nlohmann-json objects are modelled as
association lists with insert-or-replace assignment; member access follows the
library's documented semantics (`contains`, `operator[]`, `value`).
Machine-level reads are modelled by explicit byte (Char) lists.
-/

deriving instance DecidableEq for Except

/-- Model of a nlohmann JSON value (floats never arise in this server). -/
inductive Json : Type where
  | null : Json
  | bool (b : Bool) : Json
  | num (n : Int) : Json
  | str (s : String) : Json
  | arr (elems : List Json) : Json
  | obj (members : List (String × Json)) : Json

/-- Association-list lookup by key (first match), used for JSON objects and header maps. -/
def alookup {α β : Type} [DecidableEq α] : List (α × β) → α → Option β
  | [], _ => none
  | (k, v) :: rest, key => if k = key then some v else alookup rest key

/-- Association-list insert-or-replace, modelling `map[key] = value`. -/
def ainsert {α β : Type} [DecidableEq α] : List (α × β) → α → β → List (α × β)
  | [], key, value => [(key, value)]
  | (k, v) :: rest, key, value =>
    if k = key then (k, value) :: rest else (k, v) :: ainsert rest key value

/-- `j.contains(key)` would be `(Json.find j key).isSome`; `find` models keyed access
on objects and returns `none` on every non-object, matching `json::contains`. -/
def Json.find : Json → String → Option Json
  | .obj kvs, key => alookup kvs key
  | _, _ => none

/-- `json::contains`: `false` on non-objects and on objects without the key. -/
def Json.contains (j : Json) (key : String) : Bool :=
  (Json.find j key).isSome

/-- `response[key] = value` on an object response (insert-or-replace). -/
def Json.setField (j : Json) (key : String) (value : Json) : Json :=
  match j with
  | .obj kvs => .obj (ainsert kvs key value)
  | other => other

/-- `json::type_name()`. -/
def Json.typeName : Json → String
  | .null => "null"
  | .bool _ => "boolean"
  | .num _ => "number"
  | .str _ => "string"
  | .arr _ => "array"
  | .obj _ => "object"

/-- Whether a JSON value is a string. -/
def Json.isStr : Json → Bool
  | .str _ => true
  | _ => false

/-- C++ exceptions relevant to this server.  `jsonExn` models a
`nlohmann::json::exception` (which also derives from `std::exception`);
`stdExn` models any other `std::exception`; `assertFail` models a failed
`JSON_ASSERT` (process abort / undefined behaviour), which no `catch` clause
can intercept. -/
inductive Exn : Type where
  | jsonExn (msg : String) : Exn
  | stdExn (msg : String) : Exn
  | assertFail : Exn
deriving DecidableEq

/-- Message of `json::type_error` 302 as thrown by `get<std::string>` on a non-string. -/
def type302Msg (v : Json) : String :=
  "[json.exception.type_error.302] type must be string, but is " ++ Json.typeName v

/-- Implicit conversion `std::string s = j;` — throws `type_error.302` unless `j` is a string. -/
def jsonToString (j : Json) : Except Exn String :=
  match j with
  | .str s => .ok s
  | v => .error (.jsonExn (type302Msg v))

/-- `const json& operator[](key)`: throws `type_error.305` on a non-object,
asserts (aborts) when the key is missing from an object. -/
def getConstIdx (j : Json) (key : String) : Except Exn Json :=
  match j with
  | .obj kvs =>
    match alookup kvs key with
    | some v => .ok v
    | none => .error .assertFail
  | other =>
    .error (.jsonExn
      ("[json.exception.type_error.305] cannot use operator[] with a string argument with "
        ++ Json.typeName other))

/-- `j.value(key, default)` for a string default: default when the key is absent,
the string when present as a string, `type_error.302` when present with another
type, `type_error.306` when `j` is not an object. -/
def jsonValueStr (j : Json) (key dflt : String) : Except Exn String :=
  match j with
  | .obj kvs =>
    match alookup kvs key with
    | none => .ok dflt
    | some (.str s) => .ok s
    | some v => .error (.jsonExn (type302Msg v))
  | other =>
    .error (.jsonExn
      ("[json.exception.type_error.306] cannot use value() with " ++ Json.typeName other))

/-! ## Tool system -/

/-- `ToolProperty` from `main.cpp`: one entry of a tool's input schema. -/
structure ToolProperty : Type where
  name : String
  type : String
  description : String
  required : Bool

/-- A `Tool` (the virtual base class): name, description, schema properties and
the `execute` member, which may throw (`Except.error`). -/
structure Tool : Type where
  name : String
  description : String
  properties : List ToolProperty
  execute : Json → Except Exn Json

/-- The `{type, description}` object built for one property inside `getSchema`. -/
def propJson (p : ToolProperty) : Json :=
  .obj [("type", .str p.type), ("description", .str p.description)]

/-- `Tool::getSchema`: iterates the properties, assigning
`properties[prop.name] = {type, description}` and pushing required names. -/
def Tool.getSchema (t : Tool) : Json :=
  let properties :=
    t.properties.foldl (fun acc p => ainsert acc p.name (propJson p)) []
  let required_props :=
    t.properties.foldl (fun acc p => if p.required then acc ++ [Json.str p.name] else acc) []
  .obj [("name", .str t.name),
        ("description", .str t.description),
        ("inputSchema", .obj [
          ("type", .str "object"),
          ("properties", .obj properties),
          ("required", .arr required_props)])]

/-- `Tool::createTextContent`. -/
def createTextContent (text : String) : Json :=
  .obj [("content", .arr [.obj [("type", .str "text"), ("text", .str text)]])]

/-- `result.content[0].text` of a tool result. -/
def contentFirstText (j : Json) : Option Json :=
  match Json.find j "content" with
  | some (.arr (x :: _)) => Json.find x "text"
  | _ => none

/-- `ToolRegistry::registerTool`: `tools_[tool->getName()] = tool`
(insert-or-replace keyed by name). -/
def registerTool (reg : List Tool) (t : Tool) : List Tool :=
  match reg with
  | [] => [t]
  | t' :: rest => if t'.name = t.name then t :: rest else t' :: registerTool rest t

/-- `ToolRegistry::getTool`: lookup by name, `none` models `nullptr`. -/
def getTool (reg : List Tool) (name : String) : Option Tool :=
  match reg with
  | [] => none
  | t :: rest => if t.name = name then some t else getTool rest name

/-- `ToolRegistry::getToolsList`: one `getSchema()` entry per registered tool. -/
def getToolsList (reg : List Tool) : Json :=
  .arr (reg.map Tool.getSchema)

/-- `EchoTool::execute`: `arguments.value("text", "")` then `"Echo: " + text`. -/
def echoExecute (arguments : Json) : Except Exn Json :=
  match jsonValueStr arguments "text" "" with
  | .error e => .error e
  | .ok text => .ok (createTextContent ("Echo: " ++ text))

/-- The `EchoTool` instance registered by `main`. -/
def echoTool : Tool :=
  { name := "echo"
    description := "Echoes back the input text"
    properties := [⟨"text", "string", "Text to echo back", true⟩]
    execute := echoExecute }

/-- The registry as `main` builds it: a single registered echo tool. -/
def mainRegistry : List Tool :=
  registerTool [] echoTool

/-! ## JSON-RPC dispatcher -/

/-- `MCPSession::create_error_response`: jsonrpc, error object, and the request
id when present, otherwise `null`. -/
def create_error_response (request : Json) (code : Int) (message : String) : Json :=
  let response := Json.obj [("jsonrpc", .str "2.0"),
    ("error", .obj [("code", .num code), ("message", .str message)])]
  match Json.find request "id" with
  | some v => response.setField "id" v
  | none => response.setField "id" .null

/-- `MCPSession::handle_initialize`: fixed result; id copied only when present. -/
def handle_initialize (request : Json) : Json :=
  let response := Json.obj [("jsonrpc", .str "2.0"),
    ("result", .obj [
      ("protocolVersion", .str "2024-11-05"),
      ("serverInfo", .obj [("name", .str "CustomMCP"), ("version", .str "1.0.0")]),
      ("capabilities", .obj [("tools", .obj [])])])]
  match Json.find request "id" with
  | some v => response.setField "id" v
  | none => response

/-- `MCPSession::handle_tools_list`: registry schema list; id copied only when present. -/
def handle_tools_list (reg : List Tool) (request : Json) : Json :=
  let response := Json.obj [("jsonrpc", .str "2.0"),
    ("result", .obj [("tools", getToolsList reg)])]
  match Json.find request "id" with
  | some v => response.setField "id" v
  | none => response

/-- The successful `tools/call` response: `{jsonrpc}` then optional id copy,
then `response["result"] = ...`, in the order `handle_tools_call` builds it. -/
def tcSuccessResponse (request res : Json) : Json :=
  let response := Json.obj [("jsonrpc", Json.str "2.0")]
  let response :=
    match Json.find request "id" with
    | some v => response.setField "id" v
    | none => response
  response.setField "result" res

/-- `MCPSession::handle_tools_call`: extracts `params.name` and
`params.arguments` via `operator[]`, looks the tool up, executes it catching
`std::exception` (so `jsonExn`/`stdExn`, but not an assertion failure). -/
def handle_tools_call (reg : List Tool) (request : Json) : Except Exn Json :=
  match getConstIdx request "params" with
  | .error e => .error e
  | .ok params =>
    match getConstIdx params "name" with
    | .error e => .error e
    | .ok nameJ =>
      match jsonToString nameJ with
      | .error e => .error e
      | .ok tool_name =>
        match getConstIdx params "arguments" with
        | .error e => .error e
        | .ok arguments =>
          match getTool reg tool_name with
          | some tool =>
            match tool.execute arguments with
            | .ok res => .ok (tcSuccessResponse request res)
            | .error (.jsonExn m) =>
              .ok (create_error_response request (-32603) ("Tool execution error: " ++ m))
            | .error (.stdExn m) =>
              .ok (create_error_response request (-32603) ("Tool execution error: " ++ m))
            | .error .assertFail => .error .assertFail
          | none =>
            .ok (create_error_response request (-32602) ("Unknown tool: " ++ tool_name))

/-- The method dispatch inside `MCPSession::handle_message` (after a successful
parse): branch on `request.contains("method")` and the string value of `method`. -/
def dispatch (reg : List Tool) (request : Json) : Except Exn Json :=
  match Json.find request "method" with
  | none => .ok (create_error_response request (-32600) "Invalid Request")
  | some mv =>
    match jsonToString mv with
    | .error e => .error e
    | .ok method =>
      if method = "initialize" then .ok ( handle_initialize request)
      else if method = "tools/list" then .ok (handle_tools_list reg request)
      else if method = "tools/call" then handle_tools_call reg request
      else .ok (create_error_response request (-32601) "Method not found")

/-- `MCPSession::handle_message`: the `try`-block around `json::parse` and the
dispatch; `catch (const json::exception&)` produces the `-32700` response built
from `json{}` (null).  The input is the outcome of `json::parse(message)`. -/
def handle_message (reg : List Tool) (parsed : Except String Json) : Except Exn Json :=
  match parsed with
  | .error _ => .ok (create_error_response Json.null (-32700) "Parse error")
  | .ok request =>
    match dispatch reg request with
    | .ok response => .ok response
    | .error (.jsonExn _) => .ok (create_error_response Json.null (-32700) "Parse error")
    | .error e => .error e

/-! ## HTTP framing layer -/

/-- ASCII `::tolower` in the C locale. -/
def toLowerChar (c : Char) : Char :=
  if 65 ≤ c.toNat ∧ c.toNat ≤ 90 then Char.ofNat (c.toNat + 32) else c

/-- Index of the first `:` in a header line (`line.find(':')`). -/
def findColonIdx : List Char → Option Nat
  | [] => none
  | c :: rest => if c = ':' then some 0 else (findColonIdx rest).map (· + 1)

/-- `if (!value.empty() && value.back() == '\r') value.pop_back();` -/
def stripTrailingCR (v : List Char) : List Char :=
  if v ≠ [] ∧ v.getLast? = some '\x0d' then v.dropLast else v

/-- One iteration of the header loop in `read_request`: split at the first `:`,
take `substr(0, colon_pos)` as key (lowercased) and `substr(colon_pos + 2)` as
value (stripping a trailing CR); no colon means the line is skipped (`none`);
`substr` throws `std::out_of_range` when its position exceeds the length. -/
def parseHeaderLine (line : List Char) : Except Exn (Option (List Char × List Char)) :=
  match findColonIdx line with
  | none => .ok none
  | some colon_pos =>
    let key := line.take colon_pos
    if colon_pos + 2 ≤ line.length then
      let value := stripTrailingCR (line.drop (colon_pos + 2))
      .ok (some (key.map toLowerChar, value))
    else .error (.stdExn "substr: out_of_range")

/-- The header loop of `read_request`, accumulating `headers[key] = value`. -/
def parseHeadersGo : List (List Char) → List (List Char × List Char) →
    Except Exn (List (List Char × List Char))
  | [], acc => .ok acc
  | line :: rest, acc =>
    match parseHeaderLine line with
    | .error e => .error e
    | .ok none => parseHeadersGo rest acc
    | .ok (some (k, v)) => parseHeadersGo rest (ainsert acc k v)

/-- All header lines of one request parsed into the header map. -/
def parseHeaders (lines : List (List Char)) : Except Exn (List (List Char × List Char)) :=
  parseHeadersGo lines []

/-- The key `read_post_body` looks up. -/
def contentLengthKey : List Char :=
  ['c', 'o', 'n', 't', 'e', 'n', 't', '-', 'l', 'e', 'n', 'g', 't', 'h']

/-- `isspace` in the C locale. -/
def isCSpace (c : Char) : Bool :=
  c = ' ' || c = '\t' || c = '\n' || c = '\x0b' || c = '\x0c' || c = '\x0d'

/-- `std::stoull` (base 10): skip whitespace, optional sign, then digits;
throws `std::invalid_argument` when no digit follows, `std::out_of_range`
beyond `ULLONG_MAX`; a negative value wraps modulo 2^64. -/
def stoull (s : List Char) : Except Exn Nat :=
  let trimmed := s.dropWhile isCSpace
  let signed : Bool × List Char :=
    match trimmed with
    | '-' :: rest => (true, rest)
    | '+' :: rest => (false, rest)
    | _ => (false, trimmed)
  let digits := signed.2.takeWhile Char.isDigit
  if digits = [] then .error (.stdExn "stoull: invalid_argument")
  else
    let v := digits.foldl (fun a c => 10 * a + (c.toNat - 48)) 0
    if 2 ^ 64 - 1 < v then .error (.stdExn "stoull: out_of_range")
    else .ok (if signed.1 then (2 ^ 64 - v % 2 ^ 64) % 2 ^ 64 else v)

/-- Outcome of `read_post_body`: a 400 response (no Content-Length), a socket
read error, or a complete body handed to `handle_message` together with the
number of bytes fetched from the network beyond the connection buffer. -/
inductive PostOutcome : Type where
  | http400 : PostOutcome
  | readError : PostOutcome
  | gotBody (body : List Char) (extraReads : Nat) : PostOutcome
deriving DecidableEq

/-- `MCPSession::read_post_body`: missing `content-length` short-circuits to
400; otherwise `std::stoull` parses the value (possibly throwing, which nothing
catches); buffered bytes beyond the header block are consumed first and only
the deficit is read from the network (`asio::async_read` fails when the peer
cannot supply it). -/
def read_post_body (headers : List (List Char × List Char)) (buffered network : List Char) :
    Except Exn PostOutcome :=
  match alookup headers contentLengthKey with
  | none => .ok .http400
  | some v =>
    match stoull v with
    | .error e => .error e
    | .ok content_length =>
      if content_length ≤ buffered.length then
        .ok (.gotBody (buffered.take content_length) 0)
      else
        let bytes_to_read := content_length - buffered.length
        if bytes_to_read ≤ network.length then
          .ok (.gotBody (buffered ++ network.take bytes_to_read) bytes_to_read)
        else .ok .readError

/-- The HTTP-level action `read_request` selects after parsing request line and headers. -/
inductive RouteAction : Type where
  | postBody : RouteAction
  | respond404 : RouteAction
  | corsNoContent : RouteAction
  | sseStream : RouteAction
deriving DecidableEq

/-- The routing of `read_request` / `handle_get_request`: POST on `/` or
`/message` reads a body, GET on `/` or `/sse` starts the SSE stream, OPTIONS
answers the CORS preflight, everything else is 404. -/
def routeRequest (mthd path : String) : RouteAction :=
  if mthd = "POST" then
    if path = "/" ∨ path = "/message" then .postBody else .respond404
  else if mthd = "GET" then
    if path = "/" ∨ path = "/sse" then .sseStream else .respond404
  else if mthd = "OPTIONS" then .corsNoContent
  else .respond404

/-! ## Helper lemmas on response shapes -/

theorem getConstIdx_of_find {j : Json} {k : String} {v : Json}
    (h : Json.find j k = some v) : getConstIdx j k = .ok v := by
  cases j <;> simp [Json.find] at h
  simp [getConstIdx, h]

theorem cer_find_error (request : Json) (code : Int) (message : String) :
    Json.find (create_error_response request code message) "error" =
      some (.obj [("code", .num code), ("message", .str message)]) := by
  unfold create_error_response
  cases Json.find request "id" <;> rfl

theorem cer_find_result (request : Json) (code : Int) (message : String) :
    Json.find (create_error_response request code message) "result" = none := by
  unfold create_error_response
  cases Json.find request "id" <;> rfl

theorem cer_find_id_present {request : Json} {v : Json} (code : Int) (message : String)
    (h : Json.find request "id" = some v) :
    Json.find (create_error_response request code message) "id" = some v := by
  unfold create_error_response
  rw [h]
  rfl

theorem cer_find_id_absent {request : Json} (code : Int) (message : String)
    (h : Json.find request "id" = none) :
    Json.find (create_error_response request code message) "id" = some .null := by
  unfold create_error_response
  rw [h]
  rfl

theorem hi_find_error (request : Json) :
    Json.find ( handle_initialize request) "error" = none := by
  unfold handle_initialize
  cases Json.find request "id" <;> rfl

theorem hi_find_id_present {request : Json} {v : Json}
    (h : Json.find request "id" = some v) :
    Json.find ( handle_initialize request) "id" = some v := by
  unfold handle_initialize
  rw [h]
  rfl

theorem hi_find_id_absent {request : Json} (h : Json.find request "id" = none) :
    Json.find ( handle_initialize request) "id" = none := by
  unfold handle_initialize
  rw [h]
  rfl

theorem htl_find_error (reg : List Tool) (request : Json) :
    Json.find (handle_tools_list reg request) "error" = none := by
  unfold handle_tools_list
  cases Json.find request "id" <;> rfl

theorem htl_find_id_present {request : Json} {v : Json} (reg : List Tool)
    (h : Json.find request "id" = some v) :
    Json.find (handle_tools_list reg request) "id" = some v := by
  unfold handle_tools_list
  rw [h]
  rfl

theorem htl_find_id_absent {request : Json} (reg : List Tool)
    (h : Json.find request "id" = none) :
    Json.find (handle_tools_list reg request) "id" = none := by
  unfold handle_tools_list
  rw [h]
  rfl

theorem tc_find_error (request res : Json) :
    Json.find (tcSuccessResponse request res) "error" = none := by
  unfold tcSuccessResponse
  cases Json.find request "id" <;> rfl

theorem tc_find_result (request res : Json) :
    Json.find (tcSuccessResponse request res) "result" = some res := by
  unfold tcSuccessResponse
  cases Json.find request "id" <;> rfl

theorem tc_find_id_present {request : Json} {v : Json} (res : Json)
    (h : Json.find request "id" = some v) :
    Json.find (tcSuccessResponse request res) "id" = some v := by
  unfold tcSuccessResponse
  rw [h]
  rfl

theorem tc_find_id_absent {request : Json} (res : Json)
    (h : Json.find request "id" = none) :
    Json.find (tcSuccessResponse request res) "id" = none := by
  unfold tcSuccessResponse
  rw [h]
  rfl

/-! ## Registry / schema lemmas -/

theorem ainsert_append_of_not_mem {α β : Type} [DecidableEq α]
    (l : List (α × β)) (k : α) (v : β) (h : ∀ q ∈ l, q.1 ≠ k) :
    ainsert l k v = l ++ [(k, v)] := by
  induction l with
  | nil => rfl
  | cons q rest ih =>
    obtain ⟨k', v'⟩ := q
    have hq : k' ≠ k := h (k', v') (List.mem_cons_self _ _)
    simp only [ainsert, if_neg hq, List.cons_append]
    rw [ih fun p hp => h p (List.mem_cons_of_mem _ hp)]

theorem foldl_ainsert_eq_map (props : List ToolProperty) (acc : List (String × Json))
    (hnd : (props.map ToolProperty.name).Nodup)
    (hdisj : ∀ q ∈ acc, q.1 ∉ props.map ToolProperty.name) :
    props.foldl (fun a p => ainsert a p.name (propJson p)) acc =
      acc ++ props.map fun p => (p.name, propJson p) := by
  induction props generalizing acc with
  | nil => simp
  | cons p rest ih =>
    rw [List.map_cons, List.nodup_cons] at hnd
    obtain ⟨hp, hrest⟩ := hnd
    simp only [List.foldl_cons]
    rw [ainsert_append_of_not_mem acc p.name (propJson p) ?hne, ih (acc ++ [(p.name, propJson p)]) hrest ?hd]
    · simp
    case hne =>
      intro q hq hc
      exact hdisj q hq (by simp [hc])
    case hd =>
      intro q hq
      rcases List.mem_append.mp hq with h1 | h2
      · intro hc
        exact hdisj q h1 (by simp [hc])
      · intro hc
        simp only [List.mem_singleton] at h2
        rw [h2] at hc
        exact hp hc

theorem foldl_required_eq_filter (props : List ToolProperty) (acc : List Json) :
    props.foldl (fun a p => if p.required then a ++ [Json.str p.name] else a) acc =
      acc ++ (props.filter fun p => p.required).map fun p => Json.str p.name := by
  induction props generalizing acc with
  | nil => simp
  | cons p rest ih =>
    simp only [List.foldl_cons]
    cases hr : p.required <;> rw [ih] <;> simp [List.filter_cons, hr]

/-- C6: `tools/list` returns one entry per registered tool, and (for a tool
whose declared parameter names are distinct, as the registration interface
intends) each entry is exactly the schema derived from the declared
parameters: `{name, description, inputSchema: {type: "object", properties:
one {type, description} object per parameter, required: the names of the
parameters marked required}}`, types and descriptions verbatim. -/
theorem c6_tools_list_round_trip (reg : List Tool) (t : Tool)
    (hmem : t ∈ reg)
    (hnd : (t.properties.map ToolProperty.name).Nodup) :
    getToolsList reg = Json.arr (reg.map Tool.getSchema) ∧
    (reg.map Tool.getSchema).length = reg.length ∧
    Tool.getSchema t ∈ reg.map Tool.getSchema ∧
    Tool.getSchema t = Json.obj [("name", Json.str t.name),
      ("description", Json.str t.description),
      ("inputSchema", Json.obj [
        ("type", Json.str "object"),
        ("properties", Json.obj (t.properties.map fun p => (p.name, propJson p))),
        ("required", Json.arr
          ((t.properties.filter fun p => p.required).map fun p => Json.str p.name))])] := by
  refine ⟨rfl, by simp, List.mem_map_of_mem _ hmem, ?_⟩
  unfold Tool.getSchema
  rw [foldl_ainsert_eq_map t.properties [] hnd (by simp), foldl_required_eq_filter]
  simp

/-- C6 witness: the registry of `main` (just the echo tool) evaluated. -/
theorem c6_witness :
    getToolsList mainRegistry = Json.arr (mainRegistry.map Tool.getSchema) ∧
    (mainRegistry.map Tool.getSchema).length = mainRegistry.length ∧
    Tool.getSchema echoTool ∈ mainRegistry.map Tool.getSchema ∧
    Tool.getSchema echoTool = Json.obj [("name", Json.str echoTool.name),
      ("description", Json.str echoTool.description),
      ("inputSchema", Json.obj [
        ("type", Json.str "object"),
        ("properties", Json.obj (echoTool.properties.map fun p => (p.name, propJson p))),
        ("required", Json.arr
          ((echoTool.properties.filter fun p => p.required).map fun p => Json.str p.name))])] :=
  c6_tools_list_round_trip mainRegistry echoTool (List.mem_cons_self _ _) (by decide)

/-! ## Claims about the framing layer and the parse-error path -/

/-- C2 (evaluation at the failing input): a POST to `/message` whose
`Content-Length` value is the non-numeric `"abc"` is routed to the body read,
where `std::stoull` throws `std::invalid_argument`; the `.error` result models
the exception leaving `read_post_body` with no handler anywhere in the session,
so it escapes `io_context.run()` and stops the listening process instead of
being answered with a 400 or a JSON-RPC error. -/
theorem c2_crash_on_bad_content_length :
    routeRequest "POST" "/message" = .postBody ∧
    read_post_body [(contentLengthKey, ['a', 'b', 'c'])] [] [] =
      .error (.stdExn "stoull: invalid_argument") :=
  ⟨by decide, rfl⟩

/-- C5: an unparsable POST body (a `json::parse` failure) yields the `-32700`
"Parse error" JSON-RPC response with `id` equal to `null`. -/
theorem c5_parse_error (reg : List Tool) (e : String) :
    handle_message reg (.error e) =
      .ok (create_error_response Json.null (-32700) "Parse error") ∧
    Json.find (create_error_response Json.null (-32700) "Parse error") "id" =
      some Json.null ∧
    Json.find (create_error_response Json.null (-32700) "Parse error") "error" =
      some (Json.obj [("code", Json.num (-32700)), ("message", Json.str "Parse error")]) :=
  ⟨rfl, rfl, rfl⟩

/-- C8: a POST to `/` or `/message` whose headers lack a `content-length` key
routes to the body read, which answers HTTP 400 at once: the `http400` outcome
reads no body byte (it is produced independently of the buffered and network
bytes) and no JSON-RPC processing happens. -/
theorem c8_missing_content_length (mthd path : String)
    (headers : List (List Char × List Char)) (buffered network : List Char)
    (hm : mthd = "POST") (hp : path = "/" ∨ path = "/message")
    (hcl : alookup headers contentLengthKey = none) :
    routeRequest mthd path = .postBody ∧
    read_post_body headers buffered network = .ok .http400 := by
  constructor
  · subst hm
    rcases hp with rfl | rfl <;> rfl
  · unfold read_post_body
    rw [hcl]

/-- C8 witness at a concrete header-free POST. -/
theorem c8_witness :
    routeRequest "POST" "/message" = .postBody ∧
    read_post_body [] ['x'] ['y'] = .ok .http400 :=
  c8_missing_content_length "POST" "/message" [] ['x'] ['y'] rfl (Or.inr rfl) rfl

/-- C4: body framing with `Content-Length` n.  When the connection buffer
already holds at least n bytes past the header block, exactly those n bytes
form the body and no network read happens; otherwise the whole buffer is
consumed first and exactly the deficit is read from the network; either way
the body is exactly the n bytes that follow the header terminator. -/
theorem c4_body_framing (headers : List (List Char × List Char))
    (buffered network : List Char) (v : List Char) (n : Nat)
    (hcl : alookup headers contentLengthKey = some v)
    (hn : stoull v = .ok n)
    (hnet : n - buffered.length ≤ network.length) :
    (n ≤ buffered.length →
      read_post_body headers buffered network = .ok (.gotBody (buffered.take n) 0)) ∧
    (buffered.length < n →
      read_post_body headers buffered network =
        .ok (.gotBody (buffered ++ network.take (n - buffered.length)) (n - buffered.length))) ∧
    (∀ body r, read_post_body headers buffered network = .ok (.gotBody body r) →
      body = (buffered ++ network).take n ∧ body.length = n) := by
  by_cases hb : n ≤ buffered.length
  · have hred : read_post_body headers buffered network = .ok (.gotBody (buffered.take n) 0) := by
      simp [read_post_body, hcl, hn, hb]
    refine ⟨fun _ => hred, fun hlt => absurd hb (not_le.mpr hlt), ?_⟩
    intro body r hbr
    rw [hred] at hbr
    simp only [Except.ok.injEq, PostOutcome.gotBody.injEq] at hbr
    obtain ⟨hbody, -⟩ := hbr
    constructor
    · rw [← hbody, List.take_append_eq_append_take, Nat.sub_eq_zero_of_le hb]
      simp
    · rw [← hbody, List.length_take]
      exact min_eq_left hb
  · have hble : buffered.length ≤ n := le_of_not_le hb
    have hred : read_post_body headers buffered network =
        .ok (.gotBody (buffered ++ network.take (n - buffered.length)) (n - buffered.length)) := by
      simp [read_post_body, hcl, hn, hb, hnet]
    refine ⟨fun hle => absurd hle hb, fun _ => hred, ?_⟩
    intro body r hbr
    rw [hred] at hbr
    simp only [Except.ok.injEq, PostOutcome.gotBody.injEq] at hbr
    obtain ⟨hbody, -⟩ := hbr
    constructor
    · rw [← hbody, List.take_append_eq_append_take, List.take_of_length_le hble]
    · rw [← hbody, List.length_append, List.length_take, min_eq_left hnet]
      omega

/-- C4 witness: Content-Length 5 with 2 buffered bytes and 6 network bytes. -/
theorem c4_witness :
    read_post_body [(contentLengthKey, ['5'])] ['a', 'b'] ['c', 'd', 'e', 'f', 'g', 'h'] =
      .ok (.gotBody (['a', 'b'] ++ ['c', 'd', 'e', 'f', 'g', 'h'].take (5 - ['a', 'b'].length))
        (5 - ['a', 'b'].length)) :=
  (c4_body_framing [(contentLengthKey, ['5'])] ['a', 'b'] ['c', 'd', 'e', 'f', 'g', 'h']
    ['5'] 5 rfl (by decide) (by decide)).2.1 (by decide)

/-! ## Claims about header parsing -/

/-- C7 counterexample: the claim says the value of a header line is the
remainder of the line after the colon (trailing CR stripped).  On the line
`a:bc\r` the colon is at index 1, so that remainder is `bc`; the code's
`substr(colon_pos + 2)` instead yields `c`. -/
theorem c7_counterexample :
    parseHeaderLine ['a', ':', 'b', 'c', '\x0d'] = .ok (some (['a'], ['c'])) ∧
    stripTrailingCR (['a', ':', 'b', 'c', '\x0d'].drop (1 + 1)) = ['b', 'c'] ∧
    (['c'] : List Char) ≠ ['b', 'c'] := by
  refine ⟨by decide, by decide, by decide⟩

/-- C7 amended: a line is split at the first colon, the key (text before the
colon) is lowercased, and the value is the remainder after the colon AND the
one character following it (the code assumes the single `": "` separator),
with a trailing carriage return stripped; a line with no colon is skipped
without affecting the other headers; a line whose colon is its final
character makes `substr(colon_pos + 2)` throw `std::out_of_range`. -/
theorem c7_header_line_amended (line : List Char) (rest : List (List Char))
    (acc : List (List Char × List Char)) :
    (findColonIdx line = none → parseHeaderLine line = .ok none) ∧
    (findColonIdx line = none → parseHeadersGo (line :: rest) acc = parseHeadersGo rest acc) ∧
    (∀ i, findColonIdx line = some i → i + 2 ≤ line.length →
      parseHeaderLine line =
        .ok (some ((line.take i).map toLowerChar, stripTrailingCR (line.drop (i + 2))))) ∧
    (∀ i, findColonIdx line = some i → line.length < i + 2 →
      parseHeaderLine line = .error (.stdExn "substr: out_of_range")) := by
  refine ⟨?h1, ?h2, ?h3, ?h4⟩
  case h1 =>
    intro h
    simp [parseHeaderLine, h]
  case h2 =>
    intro h
    have h1 : parseHeaderLine line = .ok none := by simp [parseHeaderLine, h]
    simp [parseHeadersGo, h1]
  case h3 =>
    intro i h hle
    simp [parseHeaderLine, h, hle]
  case h4 =>
    intro i h hgt
    simp [parseHeaderLine, h, not_le.mpr hgt]

/-- C7 witness: the line `x: y\r` parses to key `x`, value `y`. -/
theorem c7_witness :
    parseHeaderLine ['x', ':', ' ', 'y', '\x0d'] =
      .ok (some (((['x', ':', ' ', 'y', '\x0d'].take 1).map toLowerChar),
        stripTrailingCR (['x', ':', ' ', 'y', '\x0d'].drop (1 + 2)))) :=
  (c7_header_line_amended ['x', ':', ' ', 'y', '\x0d'] [] []).2.2.1 1 (by decide) (by decide)

/-! ## Claims about tools/call -/

/-- C3: `tools/call` with `params.name` and `params.arguments` present: an
unregistered name yields error `-32602` with message `"Unknown tool: <name>"`;
a handler returning normally has its value placed under `result`; a handler
throwing a `std::exception` (`jsonExn` or `stdExn`) yields error `-32603`
with message `"Tool execution error: <detail>"`, still an `.ok` response —
the exception does not escape the session. -/
theorem c3_tools_call (reg : List Tool) (request : Json)
    (kvs : List (String × Json)) (name : String) (args : Json)
    (hp : Json.find request "params" = some (.obj kvs))
    (hn : alookup kvs "name" = some (.str name))
    (ha : alookup kvs "arguments" = some args) :
    (getTool reg name = none →
      handle_tools_call reg request =
        .ok (create_error_response request (-32602) ("Unknown tool: " ++ name)) ∧
      Json.find (create_error_response request (-32602) ("Unknown tool: " ++ name)) "error" =
        some (.obj [("code", .num (-32602)), ("message", .str ("Unknown tool: " ++ name))])) ∧
    (∀ t res, getTool reg name = some t → t.execute args = .ok res →
      handle_tools_call reg request = .ok (tcSuccessResponse request res) ∧
      Json.find (tcSuccessResponse request res) "result" = some res) ∧
    (∀ t m, getTool reg name = some t →
      (t.execute args = .error (.jsonExn m) ∨ t.execute args = .error (.stdExn m)) →
      handle_tools_call reg request =
        .ok (create_error_response request (-32603) ("Tool execution error: " ++ m)) ∧
      Json.find (create_error_response request (-32603) ("Tool execution error: " ++ m)) "error" =
        some (.obj [("code", .num (-32603)),
          ("message", .str ("Tool execution error: " ++ m))])) := by
  have hp' : getConstIdx request "params" = .ok (.obj kvs) := getConstIdx_of_find hp
  have hn' : getConstIdx (.obj kvs) "name" = .ok (.str name) := by simp [getConstIdx, hn]
  have ha' : getConstIdx (.obj kvs) "arguments" = .ok args := by simp [getConstIdx, ha]
  refine ⟨?c1, ?c2, ?c3⟩
  case c1 =>
    intro hg
    refine ⟨?_, cer_find_error _ _ _⟩
    simp [handle_tools_call, hp', hn', ha', jsonToString, hg]
  case c2 =>
    intro t res hg he
    refine ⟨?_, tc_find_result _ _⟩
    simp [handle_tools_call, hp', hn', ha', jsonToString, hg, he]
  case c3 =>
    intro t m hg he
    refine ⟨?_, cer_find_error _ _ _⟩
    rcases he with he | he <;> simp [handle_tools_call, hp', hn', ha', jsonToString, hg, he]

/-- The `tools/call` request with the unregistered name `nope` used as C3's witness. -/
def c3req : Json :=
  Json.obj [("method", Json.str "tools/call"),
    ("params", Json.obj [("name", Json.str "nope"), ("arguments", Json.obj [])])]

/-- C3 witness: calling the unregistered tool `nope` against `main`'s registry. -/
theorem c3_witness :
    handle_tools_call mainRegistry c3req =
      .ok (create_error_response c3req (-32602) ("Unknown tool: " ++ "nope")) ∧
    Json.find (create_error_response c3req (-32602) ("Unknown tool: " ++ "nope")) "error" =
      some (.obj [("code", .num (-32602)), ("message", .str ("Unknown tool: " ++ "nope"))]) :=
  (c3_tools_call mainRegistry c3req [("name", Json.str "nope"), ("arguments", Json.obj [])]
    "nope" (Json.obj []) rfl rfl rfl).1 rfl

/-- C9: `tools/call` of the registered echo tool: a string `text` argument `s`
produces the result `createTextContent ("Echo: " ++ s)` (whose
`content[0].text` is `"Echo: " ++ s`); an absent `text` member produces
`"Echo: "` with no error, despite `text` being declared required. -/
theorem c9_echo (request : Json) (kvs args : List (String × Json)) (s : String)
    (hp : Json.find request "params" = some (.obj kvs))
    (hn : alookup kvs "name" = some (.str "echo"))
    (ha : alookup kvs "arguments" = some (.obj args)) :
    (alookup args "text" = some (.str s) →
      handle_tools_call mainRegistry request =
        .ok (tcSuccessResponse request (createTextContent ("Echo: " ++ s))) ∧
      contentFirstText (createTextContent ("Echo: " ++ s)) =
        some (Json.str ("Echo: " ++ s))) ∧
    (alookup args "text" = none →
      handle_tools_call mainRegistry request =
        .ok (tcSuccessResponse request (createTextContent "Echo: ")) ∧
      contentFirstText (createTextContent "Echo: ") = some (Json.str "Echo: ")) := by
  have hp' : getConstIdx request "params" = .ok (.obj kvs) := getConstIdx_of_find hp
  have hn' : getConstIdx (.obj kvs) "name" = .ok (.str "echo") := by simp [getConstIdx, hn]
  have ha' : getConstIdx (.obj kvs) "arguments" = .ok (.obj args) := by simp [getConstIdx, ha]
  constructor
  · intro ht
    have hex : echoExecute (.obj args) = .ok (createTextContent ("Echo: " ++ s)) := by
      simp [echoExecute, jsonValueStr, ht]
    refine ⟨?_, rfl⟩
    simp [handle_tools_call, hp', hn', ha', jsonToString, mainRegistry, registerTool,
      getTool, echoTool, hex]
  · intro ht
    have hex : echoExecute (.obj args) = .ok (createTextContent "Echo: ") := by
      simp [echoExecute, jsonValueStr, ht]
    refine ⟨?_, rfl⟩
    simp [handle_tools_call, hp', hn', ha', jsonToString, mainRegistry, registerTool,
      getTool, echoTool, hex]

/-- The echo `tools/call` request with `text = "hi"` used as C9's witness. -/
def c9req : Json :=
  Json.obj [("method", Json.str "tools/call"),
    ("params", Json.obj [("name", Json.str "echo"),
      ("arguments", Json.obj [("text", Json.str "hi")])])]

/-- C9 witness: the echo tool called with `{"text":"hi"}`. -/
theorem c9_witness :
    handle_tools_call mainRegistry c9req =
      .ok (tcSuccessResponse c9req (createTextContent ("Echo: " ++ "hi"))) ∧
    contentFirstText (createTextContent ("Echo: " ++ "hi")) =
      some (Json.str ("Echo: " ++ "hi")) :=
  (c9_echo c9req [("name", Json.str "echo"), ("arguments", Json.obj [("text", Json.str "hi")])]
    [("text", Json.str "hi")] "hi" rfl rfl rfl).1 rfl

/-- C10: `tools/call` of the echo tool with a present but non-string `text`:
the handler throws `json::type_error` 302, the dispatcher catches it and
answers error `-32603` whose message begins `"Tool execution error: "`; the
response carries `error` (code `-32603`) and no `result`, and the call
returns normally (`.ok`), so the session does not crash. -/
theorem c10_echo_nonstring (request : Json) (kvs args : List (String × Json)) (v : Json)
    (hp : Json.find request "params" = some (.obj kvs))
    (hn : alookup kvs "name" = some (.str "echo"))
    (ha : alookup kvs "arguments" = some (.obj args))
    (ht : alookup args "text" = some v)
    (hv : Json.isStr v = false) :
    handle_tools_call mainRegistry request =
      .ok (create_error_response request (-32603)
        ("Tool execution error: " ++ type302Msg v)) ∧
    Json.find (create_error_response request (-32603)
        ("Tool execution error: " ++ type302Msg v)) "error" =
      some (.obj [("code", .num (-32603)),
        ("message", .str ("Tool execution error: " ++ type302Msg v))]) ∧
    Json.find (create_error_response request (-32603)
        ("Tool execution error: " ++ type302Msg v)) "result" = none := by
  have hp' : getConstIdx request "params" = .ok (.obj kvs) := getConstIdx_of_find hp
  have hn' : getConstIdx (.obj kvs) "name" = .ok (.str "echo") := by simp [getConstIdx, hn]
  have ha' : getConstIdx (.obj kvs) "arguments" = .ok (.obj args) := by simp [getConstIdx, ha]
  have hex : echoExecute (.obj args) = .error (.jsonExn (type302Msg v)) := by
    cases v <;> simp_all [echoExecute, jsonValueStr, Json.isStr]
  refine ⟨?_, cer_find_error _ _ _, cer_find_result _ _ _⟩
  simp [handle_tools_call, hp', hn', ha', jsonToString, mainRegistry, registerTool,
    getTool, echoTool, hex]

/-- The echo `tools/call` request with the non-string `text = 5` used as C10's witness. -/
def c10req : Json :=
  Json.obj [("method", Json.str "tools/call"),
    ("params", Json.obj [("name", Json.str "echo"),
      ("arguments", Json.obj [("text", Json.num 5)])])]

/-- C10 witness: the echo tool called with `{"text":5}`. -/
theorem c10_witness :
    handle_tools_call mainRegistry c10req =
      .ok (create_error_response c10req (-32603)
        ("Tool execution error: " ++ type302Msg (Json.num 5))) ∧
    Json.find (create_error_response c10req (-32603)
        ("Tool execution error: " ++ type302Msg (Json.num 5))) "error" =
      some (.obj [("code", .num (-32603)),
        ("message", .str ("Tool execution error: " ++ type302Msg (Json.num 5)))]) ∧
    Json.find (create_error_response c10req (-32603)
        ("Tool execution error: " ++ type302Msg (Json.num 5))) "result" = none :=
  c10_echo_nonstring c10req
    [("name", Json.str "echo"), ("arguments", Json.obj [("text", Json.num 5)])]
    [("text", Json.num 5)] (Json.num 5) rfl rfl rfl rfl rfl

/-! ## Claim about id echoing -/

/-- C1 counterexample: an `initialize` request that carries no `id` gets a
success response with NO `id` member at all — not an `id` equal to `null` as
the claim states for requests without an `id`.  Moreover a request carrying
`id = 7` whose `method` member is present but not a string is answered (via
the `json::exception` catch) with the `-32700` response whose `id` is `null`,
not `7`. -/
theorem c1_counterexample :
    handle_message [] (.ok (Json.obj [("method", Json.str "initialize")])) =
      .ok ( handle_initialize (Json.obj [("method", Json.str "initialize")])) ∧
    Json.find ( handle_initialize (Json.obj [("method", Json.str "initialize")])) "id" =
      none ∧
    (none : Option Json) ≠ some Json.null ∧
    handle_message [] (.ok (Json.obj [("id", Json.num 7), ("method", Json.num 5)])) =
      .ok (create_error_response Json.null (-32700) "Parse error") ∧
    Json.find (create_error_response Json.null (-32700) "Parse error") "id" =
      some Json.null ∧
    (some Json.null : Option Json) ≠ some (Json.num 7) :=
  ⟨rfl, rfl, fun h => Option.noConfusion h, rfl, rfl,
    fun h => Json.noConfusion (Option.some.inj h)⟩

/-- C1 amended: for a request whose `method` member (when present) is a string
and whose `params` (for `tools/call`) is an object holding a string `name` and
an `arguments` member, every response the dispatcher produces carries the
request's `id` verbatim when the request has one; when the request has no
`id`, error responses carry `id` equal to `null` while success responses omit
the `id` member entirely. -/
theorem c1_amended (reg : List Tool) (request resp : Json)
    (hmethod : ∀ mv, Json.find request "method" = some mv → ∃ s, mv = Json.str s)
    (hparams : Json.find request "method" = some (.str "tools/call") →
      ∃ kvs name args, Json.find request "params" = some (.obj kvs) ∧
        alookup kvs "name" = some (.str name) ∧ alookup kvs "arguments" = some args)
    (hresp : handle_message reg (.ok request) = .ok resp) :
    (∀ v, Json.find request "id" = some v → Json.find resp "id" = some v) ∧
    (Json.find request "id" = none →
      (Json.contains resp "error" = true → Json.find resp "id" = some Json.null) ∧
      (Json.contains resp "result" = true → Json.find resp "id" = none)) := by
  have hshape : (∃ c m, resp = create_error_response request c m) ∨
      resp = handle_initialize request ∨
      resp = handle_tools_list reg request ∨
      (∃ res, resp = tcSuccessResponse request res) := by
    cases hm : Json.find request "method" with
    | none =>
      left
      refine ⟨-32600, "Invalid Request", ?_⟩
      simp [handle_message, dispatch, hm] at hresp
      exact hresp.symm
    | some mv =>
      obtain ⟨s, rfl⟩ := hmethod mv hm
      by_cases h1 : s = "initialize"
      · subst h1
        right; left
        simp [handle_message, dispatch, hm, jsonToString] at hresp
        exact hresp.symm
      by_cases h2 : s = "tools/list"
      · subst h2
        right; right; left
        simp [handle_message, dispatch, hm, jsonToString, h1] at hresp
        exact hresp.symm
      by_cases h3 : s = "tools/call"
      · subst h3
        obtain ⟨kvs, name, args, hp, hnm, ha⟩ := hparams hm
        have hp' : getConstIdx request "params" = .ok (.obj kvs) := getConstIdx_of_find hp
        have hn' : getConstIdx (.obj kvs) "name" = .ok (.str name) := by
          simp [getConstIdx, hnm]
        have ha' : getConstIdx (.obj kvs) "arguments" = .ok args := by
          simp [getConstIdx, ha]
        cases hg : getTool reg name with
        | none =>
          left
          refine ⟨-32602, "Unknown tool: " ++ name, ?_⟩
          simp [handle_message, dispatch, hm, jsonToString, h1, h2, handle_tools_call,
            hp', hn', ha', hg] at hresp
          exact hresp.symm
        | some t =>
          cases he : t.execute args with
          | ok res =>
            right; right; right
            refine ⟨res, ?_⟩
            simp [handle_message, dispatch, hm, jsonToString, h1, h2, handle_tools_call,
              hp', hn', ha', hg, he] at hresp
            exact hresp.symm
          | error e =>
            cases e with
            | jsonExn m =>
              left
              refine ⟨-32603, "Tool execution error: " ++ m, ?_⟩
              simp [handle_message, dispatch, hm, jsonToString, h1, h2, handle_tools_call,
                hp', hn', ha', hg, he] at hresp
              exact hresp.symm
            | stdExn m =>
              left
              refine ⟨-32603, "Tool execution error: " ++ m, ?_⟩
              simp [handle_message, dispatch, hm, jsonToString, h1, h2, handle_tools_call,
                hp', hn', ha', hg, he] at hresp
              exact hresp.symm
            | assertFail =>
              exfalso
              simp [handle_message, dispatch, hm, jsonToString, h1, h2, handle_tools_call,
                hp', hn', ha', hg, he] at hresp
      · left
        refine ⟨-32601, "Method not found", ?_⟩
        simp [handle_message, dispatch, hm, jsonToString, h1, h2, h3] at hresp
        exact hresp.symm
  rcases hshape with ⟨c, m, rfl⟩ | rfl | rfl | ⟨res, rfl⟩
  · refine ⟨fun v hv => cer_find_id_present c m hv, fun hid => ⟨fun _ => cer_find_id_absent c m hid, fun hc => ?_⟩⟩
    simp [Json.contains, cer_find_result] at hc
  · refine ⟨fun v hv => hi_find_id_present hv, fun hid => ⟨fun hc => ?_, fun _ => hi_find_id_absent hid⟩⟩
    simp [Json.contains, hi_find_error] at hc
  · refine ⟨fun v hv => htl_find_id_present reg hv, fun hid => ⟨fun hc => ?_, fun _ => htl_find_id_absent reg hid⟩⟩
    simp [Json.contains, htl_find_error] at hc
  · refine ⟨fun v hv => tc_find_id_present res hv, fun hid => ⟨fun hc => ?_, fun _ => tc_find_id_absent res hid⟩⟩
    simp [Json.contains, tc_find_error] at hc

/-- The request with an `id` but no `method`, used as C1's witness. -/
def c1wreq : Json :=
  Json.obj [("id", Json.num 7), ("method", Json.str "initialize")]

/-- C1 witness: an `initialize` request with `id = 7` keeps `id = 7` in the
response. -/
theorem c1_witness :
    (∀ v, Json.find c1wreq "id" = some v →
      Json.find ( handle_initialize c1wreq) "id" = some v) ∧
    (Json.find c1wreq "id" = none →
      (Json.contains ( handle_initialize c1wreq) "error" = true →
        Json.find ( handle_initialize c1wreq) "id" = some Json.null) ∧
      (Json.contains ( handle_initialize c1wreq) "result" = true →
        Json.find ( handle_initialize c1wreq) "id" = none)) := by
  have hm : Json.find c1wreq "method" = some (Json.str "initialize") := rfl
  refine c1_amended [] c1wreq ( handle_initialize c1wreq) ?_ ?_ rfl
  · intro mv h
    rw [hm] at h
    exact ⟨"initialize", (Option.some.inj h).symm⟩
  · intro h
    rw [hm] at h
    injection h with h2
    injection h2 with h3
    exact absurd h3 (by decide)
